import Mathlib

/-!
Verification of the vocabulary-jumble game core of `src/vocab/flask_vocab.py`.

Strings are embedded as `List Char` (written `Str`), so that every operation
is a structurally recursive, kernel-evaluable function.  The modules
`src.letterbag`, `src.vocab`, `src.jumble` and `src.config` are imported by
`flask_vocab.py` but their sources are not part of this tree; the definitions
marked `Modelled from the spec:` embed them from the specification text.
The `check` and `index` handlers themselves are translated directly from
`flask_vocab.py`.
-/

/-- A string of the game, embedded as its list of characters. -/
abbrev Str : Type := List Char

/-- Whitespace recognizer used by the normalization model (the characters
whitespace that Python `str.strip` removes and that can occur in a word list: space, tab,
newline, carriage return). -/
def isSpaceChar (c : Char) : Bool :=
  c = ' ' || c = '\t' || c = '\n' || c = '\r'

/-- Strip leading and trailing whitespace from a character list
(model of the Python `str.strip` method). -/
def trimList (l : List Char) : List Char :=
  ((l.dropWhile isSpaceChar).reverse.dropWhile isSpaceChar).reverse

/-- Modelled from the spec: the normalization Vocabulary applies at load time
and to `has` queries (whitespace trimming plus case folding, §3 and §4.2);
`src.vocab.Vocab` is not under `src/`. -/
def normalizeWord (w : Str) : Str :=
  (trimList w).map Char.toLower

/-- Modelled from the spec: `LetterMultiset(s).contains(candidate)`
(§4.1); `src.letterbag.LetterBag` is not under `src/`.  The bag of
available letters is consumed left to right: each candidate character must
be found among the remaining available letters and is then removed. -/
def containsAux : List Char → List Char → Bool
  | _, [] => true
  | avail, c :: rest =>
    if c ∈ avail then containsAux (avail.erase c) rest else false

/-- Modelled from the spec: `LetterMultiset(s).contains(candidate)` answers
sub-multiset inclusion of `candidate` in `s` (§4.1). -/
def lbContains (s candidate : Str) : Bool :=
  containsAux s candidate

/-- Modelled from the spec: `Vocabulary.has(word)` — membership of the
normalized form of `word` in the loaded word list (§4.2);
`src.vocab.Vocab` is not under `src/`. -/
def hasWord (V : List Str) (w : Str) : Bool :=
  decide (normalizeWord w ∈ V)

/-- Outcome branch taken by the `check` handler of `flask_vocab.py`:
the four `if`/`elif` branches plus the final `else` whose body is
`assert False`. -/
inductive CheckOutcome
  | accepted
  | alreadyFound
  | notAVocabWord
  | notSpellable
  | invariantViolation
deriving DecidableEq

/-- Result of one `check` request: which branch ran, the `valid_word`
flag of the JSON response, and the `matches` list of the session afterwards. -/
structure CheckResult where
  outcome : CheckOutcome
  valid_word : Bool
  matchesList : List Str
deriving DecidableEq

/-- The `check` handler of `flask_vocab.py` (lines 100–124): computes
`in_jumble` and `matched`, then runs the `if`/`elif` chain, appending
`text` to `matches` only in the accepting branch. -/
def check (V : List Str) (jumble text : Str) (matchesList : List Str) : CheckResult :=
  let in_jumble := lbContains jumble text
  let matched := hasWord V text
  if matched && in_jumble && !(decide (text ∈ matchesList)) then
    { outcome := CheckOutcome.accepted, valid_word := true,
      matchesList := matchesList ++ [text] }
  else if decide (text ∈ matchesList) then
    { outcome := CheckOutcome.alreadyFound, valid_word := false, matchesList := matchesList }
  else if !matched then
    { outcome := CheckOutcome.notAVocabWord, valid_word := false, matchesList := matchesList }
  else if !in_jumble then
    { outcome := CheckOutcome.notSpellable, valid_word := false, matchesList := matchesList }
  else
    { outcome := CheckOutcome.invariantViolation, valid_word := false, matchesList := matchesList }

/-- Key characterization of the letter-bag model: `containsAux` succeeds
exactly when every character occurs in the candidate at most as often as
among the available letters. -/
theorem containsAux_eq_true_iff (avail cand : List Char) :
    containsAux avail cand = true ↔ ∀ c : Char, cand.count c ≤ avail.count c := by
  induction cand generalizing avail with
  | nil => simp [containsAux]
  | cons c rest ih =>
    simp only [containsAux]
    by_cases hc : c ∈ avail
    · simp only [if_pos hc, ih]
      constructor
      · intro h d
        by_cases hdc : d = c
        · subst hdc
          have h1 := h d
          have h2 : (avail.erase d).count d = avail.count d - 1 :=
            List.count_erase_self d avail
          have h3 : 0 < avail.count d := List.count_pos_iff.mpr hc
          have h4 : (d :: rest).count d = rest.count d + 1 := by
            simp [List.count_cons]
          omega
        · have h1 := h d
          have h2 : (avail.erase c).count d = avail.count d := by
            rw [List.count_erase_of_ne hdc]
          have h4 : (c :: rest).count d = rest.count d := by
            simp [List.count_cons, hdc]
          omega
      · intro h d
        by_cases hdc : d = c
        · subst hdc
          have h1 := h d
          have h2 : (avail.erase d).count d = avail.count d - 1 :=
            List.count_erase_self d avail
          have h4 : (d :: rest).count d = rest.count d + 1 := by
            simp [List.count_cons]
          omega
        · have h1 := h d
          have h2 : (avail.erase c).count d = avail.count d := by
            rw [List.count_erase_of_ne hdc]
          have h4 : (c :: rest).count d = rest.count d := by
            simp [List.count_cons, hdc]
          omega
    · simp only [if_neg hc]
      constructor
      · intro h
        exact absurd h (by simp)
      · intro h
        have h1 := h c
        have h2 : 0 < (c :: rest).count c := by
          simp [List.count_cons]
        have h3 : avail.count c = 0 := List.count_eq_zero.mpr hc
        omega

/-- The containment test agrees with the count comparison of the spec. -/
theorem lbContains_iff_counts (s cand : Str) :
    lbContains s cand = true ↔ ∀ c : Char, cand.count c ≤ s.count c :=
  containsAux_eq_true_iff s cand

/-- C3: `LetterMultiset(s).contains(candidate)` is true iff every character
of `candidate` occurs in `candidate` no more often than it occurs in `s`;
the empty candidate yields true, and a candidate containing a character
absent from `s` yields false. -/
theorem lbContains_spec (s cand : Str) :
    (lbContains s cand = true ↔ ∀ c ∈ cand, cand.count c ≤ s.count c)
  ∧ lbContains s ([] : Str) = true
  ∧ (∀ c : Char, c ∈ cand → c ∉ s → lbContains s cand = false) := by
  refine ⟨?_, rfl, ?_⟩
  · rw [lbContains_iff_counts]
    constructor
    · intro h c _
      exact h c
    · intro h c
      by_cases hcm : c ∈ cand
      · exact h c hcm
      · simp [List.count_eq_zero.mpr hcm]
  · intro c hcc hcs
    cases hLB : lbContains s cand with
    | false => rfl
    | true =>
      exfalso
      have h0 := (lbContains_iff_counts s cand).mp hLB c
      have h1 : 0 < cand.count c := List.count_pos_iff.mpr hcc
      have h2 : s.count c = 0 := List.count_eq_zero.mpr hcs
      omega

/-- Witness for C3 at a concrete input: `"tack"` is not spellable from
`"tac"` because of the letter `k`. -/
theorem lbContains_spec_witness :
    lbContains ['t', 'a', 'c'] ['t', 'a', 'c', 'k'] = false :=
  (lbContains_spec ['t', 'a', 'c'] ['t', 'a', 'c', 'k']).2.2 'k' (by decide) (by decide)

/-- C1: `check` accepts (valid_word = true and appends the attempt to the
matches) exactly when the attempt is a vocabulary word, is spellable from
the jumble, and is not already matched; otherwise valid_word = false and
the branches already-found, not-a-vocabulary-word, not-spellable are
tested in that order. -/
theorem check_acceptance (V : List Str) (j t : Str) (m : List Str) :
    ((check V j t m).valid_word = true ↔
        (hasWord V t = true ∧ lbContains j t = true ∧ t ∉ m))
  ∧ ((check V j t m).valid_word = true →
        (check V j t m).outcome = CheckOutcome.accepted ∧
        (check V j t m).matchesList = m ++ [t])
  ∧ (t ∈ m →
        (check V j t m).outcome = CheckOutcome.alreadyFound ∧
        (check V j t m).valid_word = false)
  ∧ (t ∉ m → hasWord V t = false →
        (check V j t m).outcome = CheckOutcome.notAVocabWord ∧
        (check V j t m).valid_word = false)
  ∧ (t ∉ m → hasWord V t = true → lbContains j t = false →
        (check V j t m).outcome = CheckOutcome.notSpellable ∧
        (check V j t m).valid_word = false) := by
  cases hM : hasWord V t <;> cases hI : lbContains j t <;>
    by_cases hm : t ∈ m <;> simp [check, hM, hI, hm]

/-- Witness for C1 at a concrete input: attempt `"cat"` against jumble
`"tack"` and vocabulary `{"cat"}` with no prior matches is accepted and
appended. -/
theorem check_acceptance_witness :
    (check [['c', 'a', 't']] ['t', 'a', 'c', 'k'] ['c', 'a', 't'] []).outcome =
        CheckOutcome.accepted ∧
    (check [['c', 'a', 't']] ['t', 'a', 'c', 'k'] ['c', 'a', 't'] []).matchesList =
        [] ++ [['c', 'a', 't']] :=
  (check_acceptance [['c', 'a', 't']] ['t', 'a', 'c', 'k'] ['c', 'a', 't'] []).2.1
    (by decide)

/-- C6: for every input, `check` takes exactly one of the four outcome
branches; the residual `assert False` branch is unreachable. -/
theorem check_exhaustive (V : List Str) (j t : Str) (m : List Str) :
    ((check V j t m).outcome = CheckOutcome.accepted ∨
     (check V j t m).outcome = CheckOutcome.alreadyFound ∨
     (check V j t m).outcome = CheckOutcome.notAVocabWord ∨
     (check V j t m).outcome = CheckOutcome.notSpellable) ∧
    (check V j t m).outcome ≠ CheckOutcome.invariantViolation := by
  cases hM : hasWord V t <;> cases hI : lbContains j t <;>
    by_cases hm : t ∈ m <;> simp [check, hM, hI, hm]

/-- Witness for C6 at a concrete input: a rejected attempt lands in one of
the four branches and not in the residual one. -/
theorem check_exhaustive_witness :
    ((check [] [] ['c'] []).outcome = CheckOutcome.accepted ∨
     (check [] [] ['c'] []).outcome = CheckOutcome.alreadyFound ∨
     (check [] [] ['c'] []).outcome = CheckOutcome.notAVocabWord ∨
     (check [] [] ['c'] []).outcome = CheckOutcome.notSpellable) ∧
    (check [] [] ['c'] []).outcome ≠ CheckOutcome.invariantViolation :=
  check_exhaustive [] [] ['c'] []

/-- C9: in every branch other than the accepting one, the matches list is
left unchanged. -/
theorem check_frame (V : List Str) (j t : Str) (m : List Str)
    (h : (check V j t m).outcome ≠ CheckOutcome.accepted) :
    (check V j t m).matchesList = m := by
  revert h
  cases hM : hasWord V t <;> cases hI : lbContains j t <;>
    by_cases hm : t ∈ m <;> simp [check, hM, hI, hm]

/-- Witness for C9 at a concrete input: an attempt rejected as
not-a-vocabulary-word leaves the matches list empty. -/
theorem check_frame_witness :
    (check [] [] ['c'] []).matchesList = [] :=
  check_frame [] [] ['c'] [] (by decide)

/-- Linear congruential step used as the seeded pseudo-random source of the
jumble generator model. -/
def lcg (st : Nat) : Nat :=
  (st * 1103515245 + 12345) % 2 ^ 31

/-- Error condition of the jumble generator (spec §7). -/
inductive JumbleError
  | invalidArgument
deriving DecidableEq

/-- Modelled from the spec: selection of `target_count` distinct words using
the seeded pseudo-random source (§4.3); `src.jumble.jumbled` is not under
`src/`.  Each step picks one remaining element at a pseudo-random index and
removes it before the next draw. -/
def drawDistinct {α : Type} [DecidableEq α] : Nat → Nat → List α → List α
  | 0, _, _ => []
  | k + 1, st, rem =>
    if h : 0 < rem.length then
      rem.get ⟨st % rem.length, Nat.mod_lt st h⟩ ::
        drawDistinct k (lcg st)
          (rem.erase (rem.get ⟨st % rem.length, Nat.mod_lt st h⟩))
    else []

/-- Initial generator state: the supplied seed when present, otherwise the
time-derived value (spec §4.3: unseeded calls draw from a time source). -/
def seedState (seed : Option Int) (time : Nat) : Nat :=
  match seed with
  | some r => r.toNat
  | none => time

/-- Modelled from the spec: `GenerateJumble(vocabulary, targetCount, seed?)`
(§4.3 and §6); `src.jumble.jumbled` is not under `src/`.  Requires
`1 ≤ targetCount ≤ vocabulary.size()` and fails with InvalidArgument
otherwise; selection draws first, then the combined letters are permuted
with the same seeded source. -/
def jumbled (V : List Str) (k : Nat) (seed : Option Int) (time : Nat) :
    Except JumbleError Str :=
  if 1 ≤ k ∧ k ≤ V.length then
    Except.ok
      ((drawDistinct k (seedState seed time) V).flatten.rotate
        (lcg (seedState seed time)))
  else Except.error JumbleError.invalidArgument

/-- The selection returns exactly `k` words when `k` words are available. -/
theorem drawDistinct_length {α : Type} [DecidableEq α] (k : Nat) :
    ∀ (st : Nat) (rem : List α), k ≤ rem.length →
      (drawDistinct k st rem).length = k := by
  induction k with
  | zero =>
    intro st rem _
    rfl
  | succ k ih =>
    intro st rem h
    have hpos : 0 < rem.length := by omega
    have hmem : rem.get ⟨st % rem.length, Nat.mod_lt st hpos⟩ ∈ rem :=
      List.get_mem rem _ _
    have hlen : (rem.erase (rem.get ⟨st % rem.length, Nat.mod_lt st hpos⟩)).length =
        rem.length - 1 := List.length_erase_of_mem hmem
    simp only [drawDistinct, dif_pos hpos, List.length_cons]
    rw [ih (lcg st) _ (by omega)]

/-- Every selected word comes from the available list. -/
theorem drawDistinct_subset {α : Type} [DecidableEq α] (k : Nat) :
    ∀ (st : Nat) (rem : List α), ∀ x ∈ drawDistinct k st rem, x ∈ rem := by
  induction k with
  | zero =>
    intro st rem x hx
    simp [drawDistinct] at hx
  | succ k ih =>
    intro st rem x hx
    by_cases h : 0 < rem.length
    · simp only [drawDistinct, dif_pos h, List.mem_cons] at hx
      rcases hx with rfl | hx
      · exact List.get_mem rem _ _
      · exact List.erase_subset _ _ (ih _ _ x hx)
    · simp [drawDistinct, dif_neg h] at hx

/-- The selected words are pairwise distinct when the available list is. -/
theorem drawDistinct_nodup {α : Type} [DecidableEq α] (k : Nat) :
    ∀ (st : Nat) (rem : List α), rem.Nodup → (drawDistinct k st rem).Nodup := by
  induction k with
  | zero =>
    intro st rem _
    simp [drawDistinct]
  | succ k ih =>
    intro st rem hnd
    by_cases h : 0 < rem.length
    · simp only [drawDistinct, dif_pos h]
      refine List.nodup_cons.mpr ⟨?_, ih _ _ (hnd.erase _)⟩
      intro hmem
      have hsub := drawDistinct_subset k (lcg st) _ _ hmem
      rw [List.Nodup.mem_erase_iff hnd] at hsub
      exact hsub.1 rfl
    · simp [drawDistinct, dif_neg h]

/-- A member word of a list of words needs no more of any letter than the
concatenation of the whole list provides. -/
theorem count_le_flatten_of_mem (L : List (List Char)) (w : List Char) (hw : w ∈ L)
    (c : Char) : w.count c ≤ L.flatten.count c := by
  induction L with
  | nil => simp at hw
  | cons x xs ih =>
    rcases List.mem_cons.mp hw with rfl | hw2
    · rw [List.flatten_cons, List.count_append]
      omega
    · have := ih hw2
      rw [List.flatten_cons, List.count_append]
      omega

/-- C4: the seeded generator is deterministic — two calls with identical
vocabulary, target count and seed produce identical jumble strings, whatever
the ambient time-derived value is. -/
theorem jumbled_deterministic (V : List Str) (k : Nat) (r : Int)
    (t1 t2 : Nat) : jumbled V k (some r) t1 = jumbled V k (some r) t2 := rfl

/-- C5: the generator fails with InvalidArgument whenever the target count
is outside `1 ≤ k ≤ |V|`. -/
theorem jumbled_invalid (V : List Str) (seed : Option Int) (time : Nat)
    (k : Nat) (h : ¬(1 ≤ k ∧ k ≤ V.length)) :
    jumbled V k seed time = Except.error JumbleError.invalidArgument := by
  unfold jumbled
  rw [if_neg h]

/-- Witness for C5 at concrete inputs: target counts `0` and `|V| + 1` are
both rejected for a one-word vocabulary. -/
theorem jumbled_invalid_witness :
    jumbled [['c', 'a', 't']] 0 (some 1) 0 =
        Except.error JumbleError.invalidArgument ∧
    jumbled [['c', 'a', 't']] 2 (some 1) 0 =
        Except.error JumbleError.invalidArgument :=
  ⟨jumbled_invalid [['c', 'a', 't']] (some 1) 0 0 (by decide),
   jumbled_invalid [['c', 'a', 't']] (some 1) 0 2 (by decide)⟩

/-- C2: a successfully generated jumble embeds `k` distinct vocabulary
words, each spellable from the letter multiset of the jumble. -/
theorem jumbled_post (V : List Str) (k : Nat) (seed : Option Int)
    (time : Nat) (J : Str) (hnd : V.Nodup) (hk1 : 1 ≤ k) (hk2 : k ≤ V.length)
    (hJ : jumbled V k seed time = Except.ok J) :
    ∃ ws : List Str, ws.length = k ∧ ws.Nodup ∧ (∀ w ∈ ws, w ∈ V) ∧
      ∀ w ∈ ws, lbContains J w = true := by
  have hcond : 1 ≤ k ∧ k ≤ V.length := ⟨hk1, hk2⟩
  unfold jumbled at hJ
  rw [if_pos hcond] at hJ
  injection hJ with hJ
  refine ⟨drawDistinct k (seedState seed time) V,
    drawDistinct_length k _ _ hk2,
    drawDistinct_nodup k _ _ hnd,
    fun w hw => drawDistinct_subset k _ _ w hw, ?_⟩
  intro w hw
  rw [lbContains_iff_counts]
  intro c
  have h1 : w.count c ≤ (drawDistinct k (seedState seed time) V).flatten.count c :=
    count_le_flatten_of_mem _ w hw c
  have h2 : ((drawDistinct k (seedState seed time) V).flatten.rotate
      (lcg (seedState seed time))).count c =
      (drawDistinct k (seedState seed time) V).flatten.count c :=
    (List.rotate_perm _ _).count_eq c
  rw [← hJ, h2]
  exact h1

/-- Witness for C2 at a concrete input: with vocabulary `{"a", "b"}`,
target count 1 and seed 7, the generated jumble is `"b"` and one
vocabulary word is spellable from it. -/
theorem jumbled_post_witness :
    ∃ ws : List Str, ws.length = 1 ∧ ws.Nodup ∧
      (∀ w ∈ ws, w ∈ [['a'], ['b']]) ∧
      ∀ w ∈ ws, lbContains ['b'] w = true :=
  jumbled_post [['a'], ['b']] 1 (some 7) 0 ['b'] (by decide) (by decide)
    (by decide) (by rfl)

/-- Session state the index handler of `flask_vocab.py` establishes:
`target_count`, the generated jumble, and the emptied matches list. -/
structure SessionState where
  target_count : Nat
  jumble : Except JumbleError Str
  matchesList : List Str

/-- The seed argument computed at the call site of the generator in
`flask_vocab.py` (line 53): `None if not SEED or SEED < 0 else SEED`,
where `SEED` is the result of `int(CONFIG.SEED)` at module load, `none`
when that raised ValueError (lines 34–38). -/
def seedArg : Option Int → Option Int
  | none => none
  | some v => if v = 0 then none else if v < 0 then none else some v

/-- The index handler of `flask_vocab.py` (lines 45–59): clamps the target
count to `min(len(vocab), CONFIG.SUCCESS_AT_COUNT)`, generates the jumble
with the clamped count and the filtered seed, and resets the matches. -/
def index (V : List Str) (successAt : Nat) (SEED : Option Int)
    (time : Nat) : SessionState :=
  { target_count := min V.length successAt
    jumble := jumbled V (min V.length successAt) (seedArg SEED) time
    matchesList := [] }

/-- Counterexample for C7: with the non-empty one-word vocabulary and
configured success threshold `0`, the clamped target count is `0`, so the
assertion `target_count > 0` of the index handler fails. -/
theorem index_assert_cex :
    ¬ 0 < (index [['c', 'a', 't']] 0 none 0).target_count := by decide

/-- C7 (amended): for a non-empty vocabulary and a configured success
threshold of at least 1, the index handler sets `target_count` to
`min(vocabulary.size(), threshold)` and passes exactly that count to the
generator, initializes the matches to the empty list, and the clamped
target count is strictly positive. -/
theorem index_spec (V : List Str) (successAt : Nat) (SEED : Option Int)
    (time : Nat) (hV : 0 < V.length) (hs : 1 ≤ successAt) :
    (index V successAt SEED time).target_count = min V.length successAt
  ∧ (index V successAt SEED time).matchesList = []
  ∧ (index V successAt SEED time).jumble =
      jumbled V ((index V successAt SEED time).target_count) (seedArg SEED) time
  ∧ 0 < (index V successAt SEED time).target_count := by
  refine ⟨rfl, rfl, rfl, ?_⟩
  simp only [index]
  omega

/-- Witness for C7 (amended) at a concrete input: vocabulary `{"cat"}`
and threshold 3. -/
theorem index_spec_witness :
    (index [['c', 'a', 't']] 3 none 0).target_count = min 1 3
  ∧ (index [['c', 'a', 't']] 3 none 0).matchesList = []
  ∧ (index [['c', 'a', 't']] 3 none 0).jumble =
      jumbled [['c', 'a', 't']]
        ((index [['c', 'a', 't']] 3 none 0).target_count) (seedArg none) 0
  ∧ 0 < (index [['c', 'a', 't']] 3 none 0).target_count :=
  index_spec [['c', 'a', 't']] 3 none 0 (by decide) (by decide)

/-- C10: a SEED whose parse failed, a zero SEED and a negative SEED all
make the index handler call the generator unseeded; only a positive
integer SEED is passed through. -/
theorem index_seed_passing (V : List Str) (successAt : Nat) (time : Nat) :
    ((index V successAt none time).jumble =
        jumbled V (min V.length successAt) none time)
  ∧ (∀ v : Int, v ≤ 0 → (index V successAt (some v) time).jumble =
        jumbled V (min V.length successAt) none time)
  ∧ (∀ v : Int, 0 < v → (index V successAt (some v) time).jumble =
        jumbled V (min V.length successAt) (some v) time) := by
  refine ⟨rfl, ?_, ?_⟩
  · intro v hv
    have hcase : v = 0 ∨ v < 0 := by omega
    rcases hcase with h | h
    · simp [index, seedArg, h]
    · have hne : ¬ v = 0 := by omega
      simp [index, seedArg, hne, h]
  · intro v hv
    have hne : ¬ v = 0 := by omega
    have hnlt : ¬ v < 0 := by omega
    simp [index, seedArg, hne, hnlt]

/-- Witness for C10 at concrete inputs: SEED `-2` is replaced by an
unseeded call, SEED `5` is passed through. -/
theorem index_seed_passing_witness :
    ((index [['c', 'a', 't']] 3 (some (-2)) 0).jumble =
        jumbled [['c', 'a', 't']] (min 1 3) none 0)
  ∧ ((index [['c', 'a', 't']] 3 (some 5) 0).jumble =
        jumbled [['c', 'a', 't']] (min 1 3) (some 5) 0) :=
  ⟨(index_seed_passing [['c', 'a', 't']] 3 0).2.1 (-2) (by decide),
   (index_seed_passing [['c', 'a', 't']] 3 0).2.2 5 (by decide)⟩

/-- Failure condition of vocabulary loading (spec §7). -/
inductive LoadError
  | loadError
deriving DecidableEq

/-- True when the line is a comment line (the designated comment-prefix
rule of spec §6). -/
def isCommentLine (w : Str) : Bool :=
  match w with
  | [] => false
  | c :: _ => c = '#'

/-- Modelled from the spec: the words kept from the raw source lines —
normalized, with blank lines and comment lines dropped and duplicate
entries removed (§4.2, §6); `src.vocab.Vocab` is not under `src/`. -/
def keptWords (lines : List Str) : List Str :=
  ((lines.map normalizeWord).filter
    (fun w => !w.isEmpty && !isCommentLine w)).dedup

/-- Modelled from the spec: `LoadVocabulary(source) -> Vocabulary | LoadError`
(§4.2, §6, §7); `src.vocab.Vocab` is not under `src/`.  An absent source
(`none`) models an unreadable file; a source with no words at all is
rejected. -/
def loadVocabulary : Option (List Str) → Except LoadError (List Str)
  | none => Except.error LoadError.loadError
  | some lines =>
    if (keptWords lines).isEmpty then Except.error LoadError.loadError
    else Except.ok (keptWords lines)

/-- C8: loading fails with LoadError when the source is unreadable and
when it contains no words at all, and succeeds on a readable non-empty
source; the resulting vocabulary is a plain immutable value. -/
theorem loadVocabulary_spec :
    loadVocabulary none = Except.error LoadError.loadError
  ∧ (∀ lines : List Str, keptWords lines = [] →
      loadVocabulary (some lines) = Except.error LoadError.loadError)
  ∧ loadVocabulary (some [['c', 'a', 't']]) = Except.ok [['c', 'a', 't']] := by
  refine ⟨rfl, ?_, by rfl⟩
  intro lines h
  simp [loadVocabulary, h]

/-- Witness for C8 at a concrete input: a source holding only a blank line
and a comment line has no words, so loading fails. -/
theorem loadVocabulary_spec_witness :
    loadVocabulary (some [[' '], ['#', 'x']]) =
      Except.error LoadError.loadError :=
  loadVocabulary_spec.2.1 [[' '], ['#', 'x']] (by decide)
